import Mathlib

/-!
Shallow embedding of the ArcGISBackups repository (src/app.py, src/backup_cli.py,
src/test_backup_subpath.py).

Modelling conventions:
* a Python `str` is a `List Char` (abbreviated `PyStr`); only the ASCII whitespace
  characters recognised by Python's `str.strip` / `\s` are modelled;
* a filesystem path is a list of segments (`List PyStr`), rooted at `/`;
  `pathlib.Path.resolve()` is modelled lexically (a symlink-free filesystem);
* the filesystem itself (for directory creation) is the list of directories that
  exist, each given by its segment list;
* remote calls (`gis.content.get`, `gis.content.offline.export_items`, `mkdir`)
  are parameters of the model: an environment records, for each identifier, what
  the remote lookup does (returns an item, returns `None`, or raises), and what
  `mkdir` / `export_items` do.
-/

abbrev PyStr := List Char

/-- ASCII whitespace as recognised by Python's `str.strip` and `\s`. -/
def isPySpace (c : Char) : Bool :=
  c = ' ' || c = '\t' || c = '\n' || c = '\r' || c = '\x0b' || c = '\x0c'

/-- Python `str.strip()`: drop leading and trailing whitespace. -/
def pyStrip (s : PyStr) : PyStr :=
  (((s.dropWhile isPySpace).reverse).dropWhile isPySpace).reverse

/-- Split a string at every character satisfying `p`, keeping empty pieces
(`re.split` on single delimiter occurrences). Splitting on delimiter *runs*
(`[\s,\n]+`) yields the same result once empty pieces are dropped. -/
def splitOn (p : Char → Bool) : PyStr → List PyStr
  | [] => [[]]
  | c :: cs =>
    if p c then [] :: splitOn p cs
    else
      match splitOn p cs with
      | [] => [[c]]
      | t :: ts => (c :: t) :: ts

/-- Python `sep.join(parts)`. -/
def pyJoin (sep : PyStr) : List PyStr → PyStr
  | [] => []
  | [t] => t
  | t :: ts => t ++ sep ++ pyJoin sep ts

/-- Delimiters of `normalize_item_ids`: the class `[\s,\n]` of app.py:107. -/
def isDelim (c : Char) : Bool := isPySpace c || c = ','

/-- `normalize_item_ids` (app.py:103-108): parse comma- or newline-separated
item IDs; return the list of non-empty stripped IDs. -/
def normalize_item_ids (raw : PyStr) : List PyStr :=
  if pyStrip raw = [] then []
  else
    (((splitOn isDelim (pyStrip raw)).filter (fun p => pyStrip p ≠ [])).map pyStrip)

/-- Accumulator-based tokenizer: maximal delimiter-free runs of the input, in
order, used as the specification-side reading of "splits on any run of
whitespace, commas and newlines, drops empty tokens". -/
def specTokensAux : PyStr → PyStr → List PyStr
  | [], acc => if acc = [] then [] else [acc.reverse]
  | c :: cs, acc =>
    if isDelim c then
      if acc = [] then specTokensAux cs []
      else acc.reverse :: specTokensAux cs []
    else specTokensAux cs (c :: acc)

/-- Specification-side tokenizer: the maximal delimiter-free runs of `s`. -/
def specTokens (s : PyStr) : List PyStr := specTokensAux s []

/-! ### Item resolution (app.py:111-125) -/

/-- A remote content item; only its identity matters to this layer. -/
structure Item where
  id : PyStr
deriving DecidableEq

/-- Outcome of one `gis.content.get(iid)` call: an item, `None`, or a raised
remote error. -/
inductive LookupResult where
  | found (item : Item)
  | notFound
  | raised
deriving DecidableEq

/-- True when the lookup produced an item. -/
def LookupResult.isFound : LookupResult → Bool
  | .found _ => true
  | .notFound => false
  | .raised => false

/-- The item of a successful lookup. -/
def LookupResult.itemOf : LookupResult → Option Item
  | .found it => some it
  | .notFound => none
  | .raised => none

/-- `resolve_items_by_ids` (app.py:111-125): resolve item IDs to items,
returning `(items, invalid_ids)`; a `None` result or a raised error classifies
the identifier as invalid and the loop continues. -/
def resolve_items_by_ids (lookup : PyStr → LookupResult) : List PyStr → List Item × List PyStr
  | [] => ([], [])
  | iid :: rest =>
    let r := resolve_items_by_ids lookup rest
    match lookup iid with
    | .found item => (item :: r.1, r.2)
    | .notFound => (r.1, iid :: r.2)
    | .raised => (r.1, iid :: r.2)

/-! ### Path model and `safe_backup_path` (app.py:128-143) -/

/-- Parse a path string into its segments: split on `/`, dropping empty
segments and `.` segments, as `pathlib.PurePath` does. -/
def parsePathParts (p : PyStr) : List PyStr :=
  (splitOn (fun c => c = '/') p).filter (fun s => decide (s ≠ []) && decide (s ≠ ['.']))

/-- A path string is absolute when it starts with `/`. -/
def isAbsPath (p : PyStr) : Bool :=
  match p with
  | [] => false
  | c :: _ => c = '/'

/-- `base / p` of `pathlib`: an absolute `p` replaces `base`, otherwise the
parsed segments of `p` are appended to `base`. -/
def pathJoin (base : List PyStr) (p : PyStr) : List PyStr :=
  if isAbsPath p then parsePathParts p else base ++ parsePathParts p

/-- `Path.resolve()` on a symlink-free filesystem: process `..` segments from
the root (at the root, `..` is a no-op). -/
def resolveParts (ps : List PyStr) : List PyStr :=
  ps.foldl (fun acc s => if s = ['.', '.'] then acc.dropLast else acc ++ [s]) []

/-- `child.relative_to(base)`: succeeds exactly when the segments of `base` are
a prefix of those of `child` (equality included), else raises `ValueError`. -/
def relative_to (child base : List PyStr) : Option (List PyStr) :=
  if base.isPrefixOf child then some (child.drop base.length) else none

/-- A filesystem state: the list of directories that exist. -/
abbrev FS := List (List PyStr)

/-- `path.mkdir(parents=True, exist_ok=True)`: create the directory and every
missing ancestor; existing directories are left alone. -/
def mkdirP (fs : FS) (p : List PyStr) : FS :=
  p.inits.foldl (fun a d => if d ∈ a then a else a ++ [d]) fs

/-- `safe_backup_path` (app.py:128-143) with its filesystem effect made
explicit: the base is created (with parents) first; an empty or blank user path
yields the base; otherwise the joined and resolved candidate is accepted iff
`relative_to` the base succeeds. Returns the result and the new filesystem. -/
def safe_backup_path_fs (fs : FS) (base : List PyStr) (user_path : PyStr) :
    Option (List PyStr) × FS :=
  let fs1 := mkdirP fs base
  if pyStrip user_path = [] then (some base, fs1)
  else
    let combined := resolveParts (pathJoin base (pyStrip user_path))
    match relative_to combined base with
    | none => (none, fs1)
    | some _ => (some combined, fs1)

/-- The value returned by `safe_backup_path`, which does not depend on the
filesystem state. -/
def safe_backup_path (base : List PyStr) (user_path : PyStr) : Option (List PyStr) :=
  (safe_backup_path_fs [] base user_path).1

/-! ### The `/backup` handler (app.py:285-343) -/

/-- Outcome of one `export_items` call: a raised error, or a result object whose
`path` attribute is missing-or-`None` (`none`) or a string. -/
inductive ExportResult where
  | raised
  | ok (reportedPath : Option PyStr)
deriving DecidableEq

/-- Outcome of one `/backup` request, one constructor per session message of
the handler. -/
inductive BackupOutcome where
  | notLoggedIn
  | sessionInvalid
  | noIdentifiers
  | unsafeDestination
  | unresolvedIdentifiers (ids : List PyStr)
  | noValidItems
  | destinationUnwritable
  | exportFailed
  | success (outPath : PyStr)
deriving DecidableEq

/-- Environment of one `/backup` request: the session checks, the remote lookup
behaviour, and what `mkdir` and `export_items` do. -/
structure Env where
  logged_in : Bool
  gis_ok : Bool
  lookup : PyStr → LookupResult
  mkdir_ok : Bool
  export_items : List Item → PyStr → ExportResult

/-- Render a segment path as the string `str(path_obj)` passed to the export
mechanism. -/
def renderPath (p : List PyStr) : PyStr :=
  '/' :: List.intercalate ['/'] p

/-- The `/backup` handler (app.py:285-343) as a pure function of its
environment and form fields; the second component records whether the external
export mechanism was invoked. -/
def backup (env : Env) (raw_ids : PyStr) (backup_path : PyStr) (base : List PyStr) :
    BackupOutcome × Bool :=
  if ¬ env.logged_in then (.notLoggedIn, false)
  else if ¬ env.gis_ok then (.sessionInvalid, false)
  else
    let backup_path_input := pyStrip backup_path
    let item_ids := normalize_item_ids raw_ids
    if item_ids = [] then (.noIdentifiers, false)
    else
      match safe_backup_path base backup_path_input with
      | none => (.unsafeDestination, false)
      | some path_obj =>
        let r := resolve_items_by_ids env.lookup item_ids
        if r.2 ≠ [] then (.unresolvedIdentifiers r.2, false)
        else if r.1 = [] then (.noValidItems, false)
        else if ¬ env.mkdir_ok then (.destinationUnwritable, false)
        else
          let path_str := renderPath path_obj
          match env.export_items r.1 path_str with
          | .raised => (.exportFailed, true)
          | .ok reported =>
            let out_path :=
              match reported with
              | some s => if s = [] then path_str else s
              | none => path_str
            (.success out_path, true)

/-! ### `get_user_folders` (app.py:56-84) -/

/-- A dynamically-typed Python value, as far as this layer observes one:
`None`, a string, or some other object with a truthiness and a `str()`
rendering. -/
inductive PyVal where
  | vnone
  | vstr (s : PyStr)
  | vother (truthy : Bool) (repr : PyStr)
deriving DecidableEq

/-- Python truthiness of a `PyVal`. -/
def PyVal.isTruthy : PyVal → Bool
  | .vnone => false
  | .vstr s => !s.isEmpty
  | .vother t _ => t

/-- Python `str(v)`. -/
def pyStr : PyVal → PyStr
  | .vnone => "None".toList
  | .vstr s => s
  | .vother _ r => r

/-- Python `a or b` on values: `a` when truthy, else `b`. -/
def pyOrV (a b : PyVal) : PyVal := if a.isTruthy then a else b

/-- One entry of `me.folders`: a dict or an object carrying (possibly missing,
possibly non-string) fields, a `str()` rendering, and possibly raising on
access. -/
structure RawFolder where
  raises : Bool
  isDict : Bool
  idF : PyVal
  folderIdF : PyVal
  titleF : PyVal
  nameF : PyVal
  folderNameF : PyVal
  strRepr : PyStr

/-- A remote connection as observed by `get_user_folders`: the folder listing
either raises or yields entries. -/
structure Conn where
  foldersRaise : Bool
  folders : List RawFolder

/-- The loop body of `get_user_folders` for one entry: the id/title fallback
chains of app.py:67-81. The source's dict branch (`f.get(...)`) and object
branch (`getattr(...)`) read the same field names in the same order, so in the
model (where both access styles are the same field read) the two branches are
one chain; `RawFolder.isDict` records which branch the source would take. -/
def folderEntry (f : RawFolder) : Option (PyVal × PyVal) :=
  let fid := pyOrV f.idF (pyOrV f.folderIdF (pyOrV f.titleF f.nameF))
  let title := pyOrV f.titleF (pyOrV f.nameF (pyOrV f.folderNameF fid))
  let display := pyOrV title (pyOrV fid (.vstr f.strRepr))
  if fid.isTruthy || display.isTruthy then
    some (.vstr (if fid.isTruthy then pyStr fid else []), .vstr (pyStr display))
  else none

/-- The folder loop: a raising entry aborts the loop; the surrounding
`except Exception: pass` then returns the entries accumulated so far. -/
def foldersLoop : List RawFolder → List (PyVal × PyVal) → List (PyVal × PyVal)
  | [], acc => acc
  | f :: fs, acc =>
    if f.raises then acc
    else
      match folderEntry f with
      | some e => foldersLoop fs (acc ++ [e])
      | none => foldersLoop fs acc

/-- `get_user_folders` (app.py:56-84): list the user's content folders as
`{id, title}` entries; every exception is swallowed, yielding the entries
accumulated before it. -/
def get_user_folders (conn : Conn) : List (PyVal × PyVal) :=
  if conn.foldersRaise then []
  else foldersLoop conn.folders []

/-! ### `default_backup_subpath` (modelled from the spec) -/

/-- A capture timestamp (only the calendar date is observed). -/
structure Date where
  year : Nat
  month : Nat
  day : Nat
deriving DecidableEq

/-- Uppercase three-letter month abbreviation. -/
def monthAbbrev : Nat → PyStr
  | 1 => "JAN".toList
  | 2 => "FEB".toList
  | 3 => "MAR".toList
  | 4 => "APR".toList
  | 5 => "MAY".toList
  | 6 => "JUN".toList
  | 7 => "JUL".toList
  | 8 => "AUG".toList
  | 9 => "SEP".toList
  | 10 => "OCT".toList
  | 11 => "NOV".toList
  | 12 => "DEC".toList
  | _ => []

/-- Zero-pad a day number to two digits. -/
def pad2 (n : Nat) : PyStr :=
  if n < 10 then '0' :: (Nat.repr n).toList else (Nat.repr n).toList

/-- Date segment `YYYY` + uppercase month abbreviation + zero-padded day. -/
def dateSegment (d : Date) : PyStr :=
  (Nat.repr d.year).toList ++ monthAbbrev d.month ++ pad2 d.day

/-- Characters invalid in a path component: `/ \ : * ? " < > |`. -/
def isBadPathChar (c : Char) : Bool :=
  c = '/' || c = '\\' || c = ':' || c = '*' || c = '?' || c = '"' ||
  c = '<' || c = '>' || c = '|'

/-- Modelled from the spec: `sanitize` of §4.3 (SubpathNamer) — replace each
invalid path character with `_`, trim surrounding whitespace, substitute
`unnamed` for an empty result. The function itself is absent from src/app.py
(it is imported from `app` by backup_cli.py and test_backup_subpath.py). -/
def sanitize (s : PyStr) : PyStr :=
  let r := pyStrip (s.map (fun c => if isBadPathChar c then '_' else c))
  if r = [] then "unnamed".toList else r

/-- Modelled from the spec: `typeKey` of §4.3 — remove all whitespace from the
type tag; an empty or blank tag becomes the literal `Item`. -/
def typeKey (t : PyStr) : PyStr :=
  let k := t.filter (fun c => !isPySpace c)
  if k = [] then "Item".toList else k

/-- Modelled from the spec: `default_backup_subpath` of §4.3 (SubpathNamer),
absent from src/app.py though imported from `app` by backup_cli.py and
test_backup_subpath.py — `<date>/<sanitized folder>/<item segments joined by
_>`, each item segment being `typeKey(type) / sanitize(name)`; an empty item
list yields `unnamed`. Cross-checked against src/test_backup_subpath.py. -/
def default_backup_subpath (folderTitle : PyStr) (items : List (PyStr × PyStr))
    (now : Date) : PyStr :=
  let itemSeg :=
    if items = [] then "unnamed".toList
    else pyJoin ['_'] (items.map (fun it => typeKey it.2 ++ ['/'] ++ sanitize it.1))
  dateSegment now ++ ['/'] ++ sanitize folderTitle ++ ['/'] ++ itemSeg

/-! ### Helper lemmas: the tokenizer -/

theorem splitOn_ne_nil (p : Char → Bool) (l : PyStr) : splitOn p l ≠ [] := by
  cases l with
  | nil => simp [splitOn]
  | cons c cs =>
    simp only [splitOn]
    split
    · simp
    · split <;> simp

theorem splitOn_cons_of_pos {p : Char → Bool} {c : Char} (cs : PyStr) (h : p c = true) :
    splitOn p (c :: cs) = [] :: splitOn p cs := by
  simp [splitOn, h]

theorem splitOn_cons_of_neg {p : Char → Bool} {c : Char} {cs t : PyStr} {ts : List PyStr}
    (h : p c = false) (hs : splitOn p cs = t :: ts) :
    splitOn p (c :: cs) = (c :: t) :: ts := by
  simp [splitOn, h, hs]

theorem splitOn_mem_false (p : Char → Bool) :
    ∀ l : PyStr, ∀ t ∈ splitOn p l, ∀ c ∈ t, p c = false := by
  intro l
  induction l with
  | nil =>
    intro t ht c hc
    simp [splitOn] at ht
    subst ht
    simp at hc
  | cons x xs ih =>
    intro t ht c hc
    cases hx : p x with
    | true =>
      rw [splitOn_cons_of_pos xs hx] at ht
      rcases List.mem_cons.mp ht with h1 | h1
      · subst h1; simp at hc
      · exact ih t h1 c hc
    | false =>
      obtain ⟨t0, ts0, hs⟩ := List.exists_cons_of_ne_nil (splitOn_ne_nil p xs)
      rw [splitOn_cons_of_neg hx hs] at ht
      rcases List.mem_cons.mp ht with h1 | h1
      · subst h1
        rcases List.mem_cons.mp hc with h2 | h2
        · subst h2; exact hx
        · exact ih t0 (by rw [hs]; exact List.mem_cons_self _ _) c h2
      · exact ih t (by rw [hs]; exact List.mem_cons_of_mem _ h1) c hc

theorem specTokensAux_splitOn :
    ∀ (cs : PyStr) (acc t : PyStr) (ts : List PyStr), splitOn isDelim cs = t :: ts →
      specTokensAux cs acc =
        (if acc.reverse ++ t = [] then [] else [acc.reverse ++ t])
          ++ ts.filter (fun x => decide (x ≠ [])) := by
  intro cs
  induction cs with
  | nil =>
    intro acc t ts h
    simp only [splitOn, List.cons.injEq] at h
    obtain ⟨h1, h2⟩ := h
    subst h1; subst h2
    simp [specTokensAux, List.reverse_eq_nil_iff]
  | cons c cs ih =>
    intro acc t ts h
    cases hc : isDelim c with
    | true =>
      rw [splitOn_cons_of_pos cs hc] at h
      injection h with h1 h2
      subst h1
      obtain ⟨t0, ts0, hs⟩ := List.exists_cons_of_ne_nil (splitOn_ne_nil isDelim cs)
      have hrec := ih [] t0 ts0 hs
      rw [← h2, hs]
      simp only [specTokensAux, hc]
      by_cases ha : acc = [] <;>
        by_cases ht0 : t0 = [] <;>
          simp [ha, ht0, hrec, List.filter_cons, List.reverse_eq_nil_iff]
    | false =>
      obtain ⟨t0, ts0, hs⟩ := List.exists_cons_of_ne_nil (splitOn_ne_nil isDelim cs)
      rw [splitOn_cons_of_neg hc hs] at h
      injection h with h1 h2
      subst h1; subst h2
      have hrec := ih (c :: acc) t0 ts0 hs
      simp only [specTokensAux, hc]
      rw [hrec]
      simp [List.append_assoc]

theorem specTokens_eq_filter (l : PyStr) :
    specTokens l = (splitOn isDelim l).filter (fun x => decide (x ≠ [])) := by
  obtain ⟨t, ts, hs⟩ := List.exists_cons_of_ne_nil (splitOn_ne_nil isDelim l)
  have h := specTokensAux_splitOn l [] t ts hs
  rw [specTokens, h, hs]
  by_cases ht : t = [] <;> simp [ht, List.filter_cons]

/-! ### Helper lemmas: stripping -/

theorem dropWhile_eq_nil_of_all {p : Char → Bool} :
    ∀ l : PyStr, (∀ c ∈ l, p c = true) → l.dropWhile p = [] := by
  intro l
  induction l with
  | nil => intro _; rfl
  | cons x xs ih =>
    intro h
    rw [List.dropWhile_cons, h x (List.mem_cons_self x xs)]
    simp [ih fun c hc => h c (List.mem_cons_of_mem x hc)]

theorem dropWhile_eq_self_of_none {p : Char → Bool} :
    ∀ l : PyStr, (∀ c ∈ l, p c = false) → l.dropWhile p = l := by
  intro l h
  cases l with
  | nil => rfl
  | cons x xs => rw [List.dropWhile_cons, h x (List.mem_cons_self x xs)]; simp

theorem pyStrip_eq_nil_of_space (l : PyStr) (h : ∀ c ∈ l, isPySpace c = true) :
    pyStrip l = [] := by
  unfold pyStrip
  rw [dropWhile_eq_nil_of_all l h]
  rfl

theorem pyStrip_eq_self_of_no_space (l : PyStr) (h : ∀ c ∈ l, isPySpace c = false) :
    pyStrip l = l := by
  unfold pyStrip
  rw [dropWhile_eq_self_of_none l h,
    dropWhile_eq_self_of_none l.reverse (fun c hc => h c (List.mem_reverse.mp hc)),
    List.reverse_reverse]

theorem isPySpace_eq_false_of_not_delim {c : Char} (h : isDelim c = false) :
    isPySpace c = false := by
  unfold isDelim at h
  exact (Bool.or_eq_false_iff.mp h).1

/-! ### Helper lemmas: `normalize_item_ids` as the tokenizer -/

theorem normalize_eq_specTokens_strip (raw : PyStr) :
    normalize_item_ids raw = specTokens (pyStrip raw) := by
  by_cases h : pyStrip raw = []
  · simp [normalize_item_ids, h, specTokens, specTokensAux]
  · rw [normalize_item_ids, if_neg h, specTokens_eq_filter]
    have hmem : ∀ t ∈ splitOn isDelim (pyStrip raw), pyStrip t = t := by
      intro t ht
      exact pyStrip_eq_self_of_no_space t fun c hc =>
        isPySpace_eq_false_of_not_delim (splitOn_mem_false isDelim (pyStrip raw) t ht c hc)
    have hmap :
        ((splitOn isDelim (pyStrip raw)).filter (fun p => pyStrip p ≠ [])).map pyStrip
          = (splitOn isDelim (pyStrip raw)).filter (fun p => pyStrip p ≠ []) := by
      rw [List.map_congr_left fun x hx => hmem x (List.mem_of_mem_filter hx)]
      simp
    rw [hmap]
    exact List.filter_congr fun x hx => by rw [hmem x hx]

theorem specTokensAux_all_space :
    ∀ (s : PyStr) (acc : PyStr), (∀ c ∈ s, isPySpace c = true) →
      specTokensAux s acc = if acc = [] then [] else [acc.reverse] := by
  intro s
  induction s with
  | nil => intro acc _; rfl
  | cons x xs ih =>
    intro acc h
    have hd : isDelim x = true := by
      unfold isDelim
      rw [h x (List.mem_cons_self x xs)]
      rfl
    have hrest := ih [] fun c hc => h c (List.mem_cons_of_mem x hc)
    simp only [specTokensAux, hd, if_true]
    by_cases ha : acc = [] <;> simp [ha, hrest]

theorem specTokensAux_append_space :
    ∀ (l : PyStr) (acc s : PyStr), (∀ c ∈ s, isPySpace c = true) →
      specTokensAux (l ++ s) acc = specTokensAux l acc := by
  intro l
  induction l with
  | nil =>
    intro acc s h
    rw [List.nil_append, specTokensAux_all_space s acc h]
    rfl
  | cons c cs ih =>
    intro acc s h
    cases hd : isDelim c with
    | true =>
      simp only [List.cons_append, specTokensAux, hd, if_true]
      by_cases ha : acc = [] <;> simp [ha, ih [] s h]
    | false =>
      simp only [List.cons_append, specTokensAux, hd]
      exact ih (c :: acc) s h

theorem specTokensAux_dropWhile_space :
    ∀ l : PyStr, specTokensAux (l.dropWhile isPySpace) [] = specTokensAux l [] := by
  intro l
  induction l with
  | nil => rfl
  | cons c cs ih =>
    cases hc : isPySpace c with
    | true =>
      have hd : isDelim c = true := by unfold isDelim; rw [hc]; rfl
      rw [List.dropWhile_cons, hc]
      simp only [if_true, ih]
      simp [specTokensAux, hd]
    | false =>
      rw [List.dropWhile_cons, hc]
      simp

theorem specTokens_pyStrip (l : PyStr) : specTokens (pyStrip l) = specTokens l := by
  have hsplit : l.dropWhile isPySpace = pyStrip l ++ ((l.dropWhile isPySpace).reverse.takeWhile isPySpace).reverse := by
    conv_lhs => rw [← List.reverse_reverse (l.dropWhile isPySpace),
      ← List.takeWhile_append_dropWhile isPySpace (l.dropWhile isPySpace).reverse]
    rw [List.reverse_append]
    rfl
  have hsp : ∀ c ∈ ((l.dropWhile isPySpace).reverse.takeWhile isPySpace).reverse,
      isPySpace c = true :=
    fun c hc => List.mem_takeWhile_imp (List.mem_reverse.mp hc)
  calc specTokens (pyStrip l)
      = specTokensAux (pyStrip l ++ ((l.dropWhile isPySpace).reverse.takeWhile isPySpace).reverse) [] :=
        (specTokensAux_append_space _ [] _ hsp).symm
    _ = specTokensAux (l.dropWhile isPySpace) [] := by rw [← hsplit]
    _ = specTokensAux l [] := specTokensAux_dropWhile_space l

theorem normalize_eq_specTokens (raw : PyStr) :
    normalize_item_ids raw = specTokens raw :=
  (normalize_eq_specTokens_strip raw).trans (specTokens_pyStrip raw)

theorem specTokens_mem (l : PyStr) :
    ∀ t ∈ specTokens l, t ≠ [] ∧ ∀ c ∈ t, isDelim c = false := by
  intro t ht
  rw [specTokens_eq_filter] at ht
  have h1 := List.mem_filter.mp ht
  exact ⟨by simpa using h1.2, fun c hc => splitOn_mem_false isDelim l t h1.1 c hc⟩

/-! ### Helper lemmas: joining clean tokens -/

theorem specTokensAux_token_skip :
    ∀ t : PyStr, (∀ c ∈ t, isDelim c = false) →
      ∀ (r acc : PyStr), specTokensAux (t ++ r) acc = specTokensAux r (t.reverse ++ acc) := by
  intro t
  induction t with
  | nil => intro _ r acc; simp
  | cons c t' ih =>
    intro h r acc
    have hc : isDelim c = false := h c (List.mem_cons_self c t')
    simp only [List.cons_append, specTokensAux, hc, Bool.false_eq_true, if_false,
      List.append_eq]
    rw [ih (fun x hx => h x (List.mem_cons_of_mem c hx)) r (c :: acc)]
    simp

theorem specTokens_pyJoin :
    ∀ ts : List PyStr, (∀ t ∈ ts, t ≠ [] ∧ ∀ c ∈ t, isDelim c = false) →
      specTokens (pyJoin [' '] ts) = ts := by
  intro ts
  induction ts with
  | nil => intro _; rfl
  | cons t ts' ih =>
    intro h
    have ht := h t (List.mem_cons_self t ts')
    cases ts' with
    | nil =>
      show specTokens t = [t]
      calc specTokensAux t []
          = specTokensAux (t ++ []) [] := by rw [List.append_nil]
        _ = specTokensAux [] (t.reverse ++ []) := specTokensAux_token_skip t ht.2 [] []
        _ = [t] := by
            simp [specTokensAux, List.reverse_eq_nil_iff, ht.1]
    | cons t2 ts2 =>
      have hrest : ∀ x ∈ t2 :: ts2, x ≠ [] ∧ ∀ c ∈ x, isDelim c = false :=
        fun x hx => h x (List.mem_cons_of_mem t hx)
      have hj : pyJoin [' '] (t :: t2 :: ts2) = t ++ ([' '] ++ pyJoin [' '] (t2 :: ts2)) := by
        simp [pyJoin]
      rw [specTokens, hj, specTokensAux_token_skip t ht.2 _ []]
      have hd : isDelim ' ' = true := by decide
      have hstep : specTokensAux ([' '] ++ pyJoin [' '] (t2 :: ts2)) (t.reverse ++ [])
          = t :: specTokensAux (pyJoin [' '] (t2 :: ts2)) [] := by
        simp [specTokensAux, hd, List.reverse_eq_nil_iff, ht.1]
      rw [hstep]
      show t :: specTokens (pyJoin [' '] (t2 :: ts2)) = t :: t2 :: ts2
      rw [ih hrest]

/-! ### Helper lemmas: the resolver -/

theorem resolve_snd (lookup : PyStr → LookupResult) :
    ∀ ids : List PyStr,
      (resolve_items_by_ids lookup ids).2 = ids.filter (fun i => !(lookup i).isFound) := by
  intro ids
  induction ids with
  | nil => rfl
  | cons iid rest ih =>
    cases h : lookup iid with
    | found it => simp [resolve_items_by_ids, h, List.filter_cons, LookupResult.isFound, ih]
    | notFound => simp [resolve_items_by_ids, h, List.filter_cons, LookupResult.isFound, ih]
    | raised => simp [resolve_items_by_ids, h, List.filter_cons, LookupResult.isFound, ih]

theorem resolve_fst (lookup : PyStr → LookupResult) :
    ∀ ids : List PyStr,
      (resolve_items_by_ids lookup ids).1 = ids.filterMap (fun i => (lookup i).itemOf) := by
  intro ids
  induction ids with
  | nil => rfl
  | cons iid rest ih =>
    cases h : lookup iid with
    | found it => simp [resolve_items_by_ids, h, List.filterMap_cons, LookupResult.itemOf, ih]
    | notFound => simp [resolve_items_by_ids, h, List.filterMap_cons, LookupResult.itemOf, ih]
    | raised => simp [resolve_items_by_ids, h, List.filterMap_cons, LookupResult.itemOf, ih]

theorem resolve_length (lookup : PyStr → LookupResult) :
    ∀ ids : List PyStr,
      (resolve_items_by_ids lookup ids).1.length + (resolve_items_by_ids lookup ids).2.length
        = ids.length := by
  intro ids
  induction ids with
  | nil => rfl
  | cons iid rest ih =>
    cases h : lookup iid with
    | found it =>
      simp only [resolve_items_by_ids, h, List.length_cons]
      omega
    | notFound =>
      simp only [resolve_items_by_ids, h, List.length_cons]
      omega
    | raised =>
      simp only [resolve_items_by_ids, h, List.length_cons]
      omega

/-! ### Helper lemmas: paths, the handler, folders -/

theorem isPrefixOf_true_iff (a b : List PyStr) : a.isPrefixOf b = true ↔ a <+: b :=
  List.isPrefixOf_iff_prefix

theorem safe_backup_path_eq (base : List PyStr) (p : PyStr) :
    safe_backup_path base p =
      if pyStrip p = [] then some base
      else if base.isPrefixOf (resolveParts (pathJoin base (pyStrip p)))
        then some (resolveParts (pathJoin base (pyStrip p)))
        else none := by
  by_cases h : pyStrip p = []
  · simp [safe_backup_path, safe_backup_path_fs, h]
  · by_cases hp : base.isPrefixOf (resolveParts (pathJoin base (pyStrip p))) <;>
      simp [safe_backup_path, safe_backup_path_fs, relative_to, h, hp]

theorem resolve_fst_ne_nil (lookup : PyStr → LookupResult) (ids : List PyStr)
    (h3 : ids ≠ []) (h5 : (resolve_items_by_ids lookup ids).2 = []) :
    (resolve_items_by_ids lookup ids).1 ≠ [] := by
  intro hc
  have hlen := resolve_length lookup ids
  rw [hc, h5] at hlen
  simp only [List.length_nil] at hlen
  exact h3 (List.length_eq_zero.mp (by omega))

theorem folderEntry_shape (f : RawFolder) (e : PyVal × PyVal)
    (h : folderEntry f = some e) :
    (∃ s, e.1 = PyVal.vstr s) ∧ ∃ t, e.2 = PyVal.vstr t := by
  simp only [folderEntry] at h
  split at h
  · injection h with h1
    subst h1
    exact ⟨⟨_, rfl⟩, ⟨_, rfl⟩⟩
  · cases h

theorem foldersLoop_entries_vstr :
    ∀ (fs : List RawFolder) (acc : List (PyVal × PyVal)),
      (∀ e ∈ acc, (∃ s, e.1 = PyVal.vstr s) ∧ ∃ t, e.2 = PyVal.vstr t) →
      ∀ e ∈ foldersLoop fs acc, (∃ s, e.1 = PyVal.vstr s) ∧ ∃ t, e.2 = PyVal.vstr t := by
  intro fs
  induction fs with
  | nil => intro acc hacc e he; exact hacc e he
  | cons f fs' ih =>
    intro acc hacc e he
    simp only [foldersLoop] at he
    split at he
    · exact hacc e he
    · split at he
      · next e' heq =>
          refine ih _ ?_ e he
          intro x hx
          rcases List.mem_append.mp hx with h1 | h1
          · exact hacc x h1
          · rw [List.mem_singleton] at h1
            subst h1
            exact folderEntry_shape f x heq
      · next heq => exact ih _ hacc e he

/-! ### Claim theorems -/

/-- C1: `safe_backup_path` accepts a user path iff joining the backup root with
the trimmed path and fully resolving it yields the root or a strict descendant
of the root (every path resolving outside the root, via `..` segments or
absolute prefixes, is rejected with `none`), and an empty or whitespace-only
path yields the root itself. -/
theorem c1_path_confinement (base : List PyStr) (p : PyStr) :
    (pyStrip p = [] → safe_backup_path base p = some base)
    ∧ ((safe_backup_path base p).isSome ↔
        pyStrip p = [] ∨ base <+: resolveParts (pathJoin base (pyStrip p)))
    ∧ (∀ q, safe_backup_path base p = some q → base <+: q) := by
  have heq := safe_backup_path_eq base p
  by_cases h : pyStrip p = []
  · rw [heq, if_pos h]
    refine ⟨fun _ => rfl, by simp [h], ?_⟩
    intro q hq
    injection hq with hq
    subst hq
    exact List.prefix_refl base
  · rw [heq, if_neg h]
    by_cases hp : base.isPrefixOf (resolveParts (pathJoin base (pyStrip p)))
    · rw [if_pos hp]
      have hpre := (isPrefixOf_true_iff base (resolveParts (pathJoin base (pyStrip p)))).mp hp
      refine ⟨fun hc => absurd hc h, by simp [hpre], ?_⟩
      intro q hq
      injection hq with hq
      subst hq
      exact hpre
    · rw [if_neg hp]
      have hnpre : ¬ base <+: resolveParts (pathJoin base (pyStrip p)) :=
        fun hc => hp ((isPrefixOf_true_iff base _).mpr hc)
      refine ⟨fun hc => absurd hc h, by simp [h, hnpre], ?_⟩
      intro q hq
      cases hq

/-- C1 witness: a blank path yields the root; an accepted subpath is a
descendant of the root; a `..` traversal is rejected. -/
theorem c1_path_confinement_witness :
    safe_backup_path ["backups".toList] "  ".toList = some ["backups".toList]
    ∧ ["backups".toList] <+: ["backups".toList, "sub".toList, "dir".toList]
    ∧ ¬ (safe_backup_path ["backups".toList] "../evil".toList).isSome := by
  refine ⟨(c1_path_confinement ["backups".toList] "  ".toList).1 (by decide),
    (c1_path_confinement ["backups".toList] "sub/dir".toList).2.2
      ["backups".toList, "sub".toList, "dir".toList] (by decide), ?_⟩
  intro hs
  rcases ((c1_path_confinement ["backups".toList] "../evil".toList).2.1).mp hs with h | h
  · exact absurd h (by decide)
  · exact absurd h (by decide)

/-- C3 counterexample: on the rejected input `..` over the root `backups` and
an empty filesystem, `safe_backup_path` returns `Rejected` but the filesystem
is changed: the backup root has been created. -/
theorem c3_reject_still_creates_root_counterexample :
    (safe_backup_path_fs [] ["backups".toList] "..".toList).1 = none
    ∧ (safe_backup_path_fs [] ["backups".toList] "..".toList).2 ≠ []
    ∧ ["backups".toList] ∈ (safe_backup_path_fs [] ["backups".toList] "..".toList).2 := by
  decide

/-- C3 (amended): the only filesystem mutation of `safe_backup_path` is
creating the backup root (with parents) if absent, but it performs this
creation on every call — rejected inputs included — not only on acceptance. -/
theorem c3_only_mutation_is_root_creation (fs : FS) (base : List PyStr) (p : PyStr) :
    (safe_backup_path_fs fs base p).2 = mkdirP fs base := by
  unfold safe_backup_path_fs
  by_cases h : pyStrip p = []
  · simp [h]
  · rcases h2 : relative_to (resolveParts (pathJoin base (pyStrip p))) base with _ | q <;>
      simp [h, h2]

/-- C5: `default_backup_subpath` (a pure function, hence deterministic) follows
the `<date>/<folder>/<items>` scheme: on folder `My Maps`, item
`("My Map", "Web Map")` and capture date 2026-02-11 it yields
`2026FEB11/My Maps/WebMap/My Map`, the date segment being the four-digit year,
the uppercase three-letter month abbreviation and the zero-padded day. -/
theorem c5_deterministic_naming :
    default_backup_subpath "My Maps".toList [("My Map".toList, "Web Map".toList)] ⟨2026, 2, 11⟩
        = "2026FEB11/My Maps/WebMap/My Map".toList
    ∧ dateSegment ⟨2026, 2, 11⟩ = "2026".toList ++ "FEB".toList ++ "11".toList
    ∧ dateSegment ⟨2025, 12, 3⟩ = "2025DEC03".toList := by
  decide

/-- C6: `normalize_item_ids` splits its input on maximal runs of whitespace,
comma and newline characters (the tokenizer `specTokens`), in first-seen order
with no deduplication; every returned token is non-empty and delimiter-free
(hence trimmed); empty or whitespace-only input yields the empty sequence. -/
theorem c6_normalize_tokenization (raw : PyStr) :
    normalize_item_ids raw = specTokens raw
    ∧ (∀ t ∈ normalize_item_ids raw, t ≠ [] ∧ ∀ c ∈ t, isDelim c = false)
    ∧ ((∀ c ∈ raw, isPySpace c = true) → normalize_item_ids raw = []) := by
  refine ⟨normalize_eq_specTokens raw, ?_, ?_⟩
  · intro t ht
    exact specTokens_mem raw t (normalize_eq_specTokens raw ▸ ht)
  · intro h
    rw [normalize_item_ids, if_pos (pyStrip_eq_nil_of_space raw h)]

/-- C6 witness: the tokenizer equality at a mixed-delimiter input, and the
empty result on a whitespace-only input. -/
theorem c6_normalize_tokenization_witness :
    normalize_item_ids " a,,b\nc ".toList = specTokens " a,,b\nc ".toList
    ∧ normalize_item_ids " \t  ".toList = [] :=
  ⟨(c6_normalize_tokenization " a,,b\nc ".toList).1,
    (c6_normalize_tokenization " \t  ".toList).2.2 (by decide)⟩

/-- C7: normalization is idempotent on its own output: re-normalizing the
space-joined result of `normalize_item_ids x` yields exactly
`normalize_item_ids x`, for every input string `x`. -/
theorem c7_normalize_idempotent (x : PyStr) :
    normalize_item_ids (pyJoin [' '] (normalize_item_ids x)) = normalize_item_ids x := by
  rw [normalize_eq_specTokens (pyJoin [' '] (normalize_item_ids x))]
  exact specTokens_pyJoin (normalize_item_ids x) fun t ht =>
    specTokens_mem x t (normalize_eq_specTokens x ▸ ht)

/-- C4: for every lookup behaviour (including raising lookups),
`resolve_items_by_ids` partitions its input: the two output lengths sum to the
input length; the unresolved list is exactly the failing identifiers in input
order; the resolved list is exactly the successful lookups in input order (so a
failing lookup never aborts the remaining ones); and each input identifier is
classified into exactly one partition. -/
theorem c4_resolution_partition (lookup : PyStr → LookupResult) (ids : List PyStr) :
    (resolve_items_by_ids lookup ids).1.length + (resolve_items_by_ids lookup ids).2.length
        = ids.length
    ∧ (resolve_items_by_ids lookup ids).2 = ids.filter (fun i => !(lookup i).isFound)
    ∧ (resolve_items_by_ids lookup ids).1 = ids.filterMap (fun i => (lookup i).itemOf)
    ∧ ∀ i ∈ ids,
        ((lookup i).isFound = true ∧ i ∉ (resolve_items_by_ids lookup ids).2)
        ∨ ((lookup i).isFound = false ∧ i ∈ (resolve_items_by_ids lookup ids).2) := by
  refine ⟨resolve_length lookup ids, resolve_snd lookup ids, resolve_fst lookup ids, ?_⟩
  intro i hi
  rw [resolve_snd]
  cases hf : (lookup i).isFound with
  | true =>
    left
    refine ⟨rfl, fun hc => ?_⟩
    have hm := (List.mem_filter.mp hc).2
    rw [hf] at hm
    simp at hm
  | false =>
    right
    exact ⟨rfl, List.mem_filter.mpr ⟨hi, by rw [hf]; rfl⟩⟩

/-- C4 witness: with a lookup resolving only `a`, the identifier `b` is
classified as unresolved. -/
theorem c4_resolution_partition_witness :
    ((fun i => if i = "a".toList then LookupResult.found ⟨"a".toList⟩
        else LookupResult.notFound) "b".toList).isFound = false
    ∧ "b".toList ∈ (resolve_items_by_ids
        (fun i => if i = "a".toList then LookupResult.found ⟨"a".toList⟩
          else LookupResult.notFound) ["a".toList, "b".toList]).2 := by
  rcases (c4_resolution_partition
      (fun i => if i = "a".toList then LookupResult.found ⟨"a".toList⟩
        else LookupResult.notFound) ["a".toList, "b".toList]).2.2.2
      "b".toList (by decide) with ⟨hf, _⟩ | ⟨hf, hm⟩
  · exact absurd hf (by decide)
  · exact ⟨hf, hm⟩

/-- C2: when a logged-in request with a valid session, a non-empty normalized
identifier list and an accepted destination has a non-empty unresolved set, the
`/backup` handler fails with `unresolvedIdentifiers` carrying exactly the
failing identifiers in input order, and the export mechanism is not invoked. -/
theorem c2_all_or_nothing (env : Env) (raw_ids backup_path : PyStr) (base : List PyStr)
    (h1 : env.logged_in = true) (h2 : env.gis_ok = true)
    (h3 : normalize_item_ids raw_ids ≠ [])
    (h4 : (safe_backup_path base (pyStrip backup_path)).isSome)
    (h5 : (resolve_items_by_ids env.lookup (normalize_item_ids raw_ids)).2 ≠ []) :
    backup env raw_ids backup_path base
      = (BackupOutcome.unresolvedIdentifiers
          ((normalize_item_ids raw_ids).filter (fun i => !(env.lookup i).isFound)), false) := by
  obtain ⟨q, hq⟩ := Option.isSome_iff_exists.mp h4
  have hr := resolve_snd env.lookup (normalize_item_ids raw_ids)
  have h5' : (normalize_item_ids raw_ids).filter (fun i => !(env.lookup i).isFound) ≠ [] :=
    hr ▸ h5
  simp [backup, h1, h2, h3, hq, hr, h5']

/-- C2 witness: identifiers `a b` where `a` resolves and `b` does not yield the
`unresolvedIdentifiers [b]` outcome without invoking the export mechanism. -/
theorem c2_all_or_nothing_witness :
    backup
        ⟨true, true,
          (fun i => if i = "a".toList then LookupResult.found ⟨"a".toList⟩
            else LookupResult.notFound),
          true, fun _ _ => ExportResult.ok none⟩
        "a b".toList "".toList ["backups".toList]
      = (BackupOutcome.unresolvedIdentifiers ["b".toList], false) := by
  rw [c2_all_or_nothing
    ⟨true, true,
      (fun i => if i = "a".toList then LookupResult.found ⟨"a".toList⟩
        else LookupResult.notFound),
      true, fun _ _ => ExportResult.ok none⟩
    "a b".toList "".toList ["backups".toList] rfl rfl (by decide) (by decide) (by decide)]
  decide

/-- C8: on a successful export, the `/backup` handler's success path is the
output location reported by the export mechanism; if the mechanism reports no
location (no `path` attribute, or an empty one) the success path falls back to
the computed destination path. -/
theorem c8_success_path_reporting (env : Env) (raw_ids backup_path : PyStr)
    (base path_obj : List PyStr) (reported : Option PyStr)
    (h1 : env.logged_in = true) (h2 : env.gis_ok = true)
    (h3 : normalize_item_ids raw_ids ≠ [])
    (h4 : safe_backup_path base (pyStrip backup_path) = some path_obj)
    (h5 : (resolve_items_by_ids env.lookup (normalize_item_ids raw_ids)).2 = [])
    (h6 : env.mkdir_ok = true)
    (h7 : env.export_items (resolve_items_by_ids env.lookup (normalize_item_ids raw_ids)).1
            (renderPath path_obj) = ExportResult.ok reported) :
    backup env raw_ids backup_path base
      = (BackupOutcome.success (match reported with
          | some s => if s = [] then renderPath path_obj else s
          | none => renderPath path_obj), true) := by
  have hne := resolve_fst_ne_nil env.lookup (normalize_item_ids raw_ids) h3 h5
  cases reported with
  | none => simp [backup, h1, h2, h3, h4, h5, h6, h7, hne]
  | some s =>
    by_cases hs : s = [] <;> simp [backup, h1, h2, h3, h4, h5, h6, h7, hne, hs]

/-- C8 witness: a reported non-empty location becomes the success path; a
missing report and an empty report both fall back to the destination. -/
theorem c8_success_path_reporting_witness :
    backup
        ⟨true, true, (fun i => LookupResult.found ⟨i⟩), true,
          fun _ _ => ExportResult.ok (some "/srv/out".toList)⟩
        "a".toList "".toList ["backups".toList]
      = (BackupOutcome.success "/srv/out".toList, true)
    ∧ backup
        ⟨true, true, (fun i => LookupResult.found ⟨i⟩), true,
          fun _ _ => ExportResult.ok none⟩
        "a".toList "".toList ["backups".toList]
      = (BackupOutcome.success (renderPath ["backups".toList]), true)
    ∧ backup
        ⟨true, true, (fun i => LookupResult.found ⟨i⟩), true,
          fun _ _ => ExportResult.ok (some [])⟩
        "a".toList "".toList ["backups".toList]
      = (BackupOutcome.success (renderPath ["backups".toList]), true) := by
  refine ⟨?_, ?_, ?_⟩
  · rw [c8_success_path_reporting
      ⟨true, true, (fun i => LookupResult.found ⟨i⟩), true,
        fun _ _ => ExportResult.ok (some "/srv/out".toList)⟩
      "a".toList "".toList ["backups".toList] ["backups".toList] (some "/srv/out".toList)
      rfl rfl (by decide) (by decide) (by decide) rfl rfl]
    decide
  · rw [c8_success_path_reporting
      ⟨true, true, (fun i => LookupResult.found ⟨i⟩), true,
        fun _ _ => ExportResult.ok none⟩
      "a".toList "".toList ["backups".toList] ["backups".toList] none
      rfl rfl (by decide) (by decide) (by decide) rfl rfl]
  · rw [c8_success_path_reporting
      ⟨true, true, (fun i => LookupResult.found ⟨i⟩), true,
        fun _ _ => ExportResult.ok (some [])⟩
      "a".toList "".toList ["backups".toList] ["backups".toList] (some [])
      rfl rfl (by decide) (by decide) (by decide) rfl rfl]
    decide

/-- C9: the `No valid items` branch of the `/backup` handler is unreachable:
for every environment and input, the handler never produces the
`noValidItems` outcome, because an empty invalid-identifier list together with
a non-empty normalized identifier list forces a non-empty resolved list. -/
theorem c9_no_valid_items_unreachable (env : Env) (raw_ids backup_path : PyStr)
    (base : List PyStr) :
    (backup env raw_ids backup_path base).1 ≠ BackupOutcome.noValidItems := by
  by_cases h1 : env.logged_in
  case neg => simp [backup, h1]
  by_cases h2 : env.gis_ok
  case neg => simp [backup, h1, h2]
  by_cases h3 : normalize_item_ids raw_ids = []
  · simp [backup, h1, h2, h3]
  rcases hsp : safe_backup_path base (pyStrip backup_path) with _ | q
  · simp [backup, h1, h2, h3, hsp]
  by_cases h5 : (resolve_items_by_ids env.lookup (normalize_item_ids raw_ids)).2 = []
  case neg => simp [backup, h1, h2, h3, hsp, h5]
  have hne := resolve_fst_ne_nil env.lookup (normalize_item_ids raw_ids) h3 h5
  by_cases h6 : env.mkdir_ok
  · rcases hex : env.export_items
        (resolve_items_by_ids env.lookup (normalize_item_ids raw_ids)).1
        (renderPath q) with _ | rep
    · simp [backup, h1, h2, h3, hsp, h5, hne, h6, hex]
    · simp [backup, h1, h2, h3, hsp, h5, hne, h6, hex]
  · simp [backup, h1, h2, h3, hsp, h5, hne, h6]

/-- C10: `get_user_folders` is total over arbitrary connections: every entry it
returns carries string values for both the id and the title, and a raising
folder listing produces the empty list instead of propagating. -/
theorem c10_get_user_folders_total (conn : Conn) :
    (∀ e ∈ get_user_folders conn, (∃ s, e.1 = PyVal.vstr s) ∧ ∃ t, e.2 = PyVal.vstr t)
    ∧ (conn.foldersRaise = true → get_user_folders conn = []) := by
  constructor
  · intro e he
    unfold get_user_folders at he
    split at he
    · simp at he
    · exact foldersLoop_entries_vstr conn.folders [] (by simp) e he
  · intro h
    unfold get_user_folders
    rw [if_pos h]

/-- C10 witness: a raising folder listing yields the empty list, and a
well-formed entry produces string id and title values. -/
theorem c10_get_user_folders_total_witness :
    get_user_folders ⟨true, []⟩ = []
    ∧ ((∃ s, (PyVal.vstr "f1".toList, PyVal.vstr "f1".toList).1 = PyVal.vstr s)
        ∧ ∃ t, (PyVal.vstr "f1".toList, PyVal.vstr "f1".toList).2 = PyVal.vstr t) :=
  ⟨(c10_get_user_folders_total ⟨true, []⟩).2 rfl,
    (c10_get_user_folders_total
        ⟨false, [⟨false, true, PyVal.vstr "f1".toList, PyVal.vnone, PyVal.vnone,
          PyVal.vnone, PyVal.vnone, "x".toList⟩]⟩).1
      (PyVal.vstr "f1".toList, PyVal.vstr "f1".toList) (by decide)⟩
